import Mathlib

/-
  Verification development for the rani voice-interaction pipeline.

  Shallow embedding of:
  - src/src/features/ask/stt/askSttService.js   (STT normalizer, AskSttService)
  - src/src/features/ask/askService.js          (conversation orchestrator, AskService)
  - src/unnamed/part_004                        (AskAudioCapture: VAD segmentation,
                                                 voice level meter, PCM16/base64 encoding)

  Numbers that the JavaScript manipulates as IEEE doubles are modelled as exact
  rationals; machine behaviour that matters (Int16Array truncation, byte
  packing) is made explicit.  Math.sqrt, which has no exact rational value, is
  abstracted as a function parameter of the one definition that uses it.
-/

namespace Rani

/- ===================== JavaScript string primitives ===================== -/

/-- Model of the JavaScript `String.prototype.trim()`: remove whitespace from
both ends of the string. -/
def jsTrim (s : String) : String :=
  String.mk (((s.data.dropWhile Char.isWhitespace).reverse.dropWhile Char.isWhitespace).reverse)

/-- Model of the JavaScript `String.prototype.includes(pat)`: substring test. -/
def jsIncludes (s pat : String) : Bool :=
  decide (pat.data <:+: s.data)

/-- Model of the JavaScript `String.prototype.toLowerCase()`. -/
def jsToLower (s : String) : String := String.mk (s.data.map Char.toLower)

/-- Model of a JavaScript `a || b || c || ''` chain over possibly-missing
string fields: the first present, non-empty string wins, otherwise `""`. -/
def firstTruthy : List (Option String) → String
  | [] => ""
  | none :: rest => firstTruthy rest
  | some s :: rest => if s = "" then firstTruthy rest else s

/- ===================== AskSttService (askSttService.js) ===================== -/

/-- Canonical transcription events produced through the registered callbacks
(`onTranscriptionUpdate text isFinal`, `onTranscriptionComplete`,
`onStatusUpdate`, `onError`). -/
inductive SttEvent where
  | update (text : String) (isFinal : Bool)
  | complete (text : String)
  | status (s : String)
  | errorEv (e : String)
deriving DecidableEq, Repr

/-- The raw provider message shape seen by `handleMessage`.  Each field models
the correspondingly named (possibly missing) field of the duck-typed provider
message; `channelTranscript` models `message.channel?.alternatives?.[0]?.transcript`,
`inputTranscriptionText` models `message.serverContent?.inputTranscription?.text`,
`turnComplete` models `message.serverContent?.turnComplete`, `altTranscript`
models `message.alternatives?.[0]?.transcript`.  `error` is `some e` exactly
when `message.error` is truthy. -/
structure SttMessage where
  text : Option String := none
  channelTranscript : Option String := none
  isFinal : Bool := false
  turnComplete : Bool := false
  inputTranscriptionText : Option String := none
  msgType : Option String := none
  transcript : Option String := none
  delta : Option String := none
  altTranscript : Option String := none
  error : Option String := none
deriving DecidableEq

/-- State of an `AskSttService` instance.  `sttSession` records whether the
adapter handle is non-null, `modelInfo` holds the provider name when set, and
the `hasOn...` flags record which callbacks are registered (the source guards
every callback invocation with a null check). -/
structure AskSttService where
  sttSession : Bool
  isListening : Bool
  currentTranscription : String
  modelInfo : Option String
  hasOnTranscriptionUpdate : Bool
  hasOnTranscriptionComplete : Bool
  hasOnStatusUpdate : Bool
  hasOnError : Bool
deriving DecidableEq

/-- The noise-token list of the whisper arm of `handleMessage`. -/
def noisePatterns : List String :=
  ["[BLANK_AUDIO]", "[INAUDIBLE]", "[MUSIC]", "[SOUND]", "[NOISE]",
   "(BLANK_AUDIO)", "(INAUDIBLE)", "(MUSIC)", "(SOUND)", "(NOISE)"]

/-- The whisper arm of `handleMessage`: a non-empty trimmed text that is not a
noise token (neither containing nor equal to one) and longer than 2 characters
is terminal.  This arm never returns early (third component `true`), so the
caller still runs the `message.error` tail afterwards. -/
def whisperArm (msg : SttMessage) (st : AskSttService) :
    AskSttService × List SttEvent × Bool :=
  match msg.text with
  | none => (st, [], true)
  | some raw =>
    if jsTrim raw = "" then (st, [], true)
    else
      let finalText := jsTrim raw
      let isNoise := noisePatterns.any fun pat => jsIncludes finalText pat || finalText == pat
      if isNoise = false ∧ 2 < finalText.length then
        ({ st with currentTranscription := finalText },
         (if st.hasOnTranscriptionUpdate then [SttEvent.update finalText true] else [])
           ++ (if st.hasOnTranscriptionComplete then [SttEvent.complete finalText] else []),
         true)
      else (st, [], true)

/-- The deepgram arm of `handleMessage`.  The third component records whether
control falls through to the `message.error` tail (the empty-transcript guard
returns early). -/
def deepgramArm (msg : SttMessage) (st : AskSttService) :
    AskSttService × List SttEvent × Bool :=
  match msg.channelTranscript with
  | none => (st, [], false)
  | some text =>
    if jsTrim text = "" then (st, [], false)
    else if msg.isFinal then
      ({ st with currentTranscription := text },
       (if st.hasOnTranscriptionUpdate then [SttEvent.update text true] else [])
         ++ (if st.hasOnTranscriptionComplete then [SttEvent.complete text] else []),
       true)
    else
      (st, if st.hasOnTranscriptionUpdate then [SttEvent.update text false] else [], true)

/-- The gemini arm of `handleMessage`: turn-complete flushes the accumulator
through `onTranscriptionComplete` without clearing it; non-noise text chunks
are appended to the accumulator. -/
def geminiArm (msg : SttMessage) (st : AskSttService) :
    AskSttService × List SttEvent × Bool :=
  if msg.turnComplete then
    (st,
     if st.currentTranscription ≠ "" ∧ st.hasOnTranscriptionComplete then
       [SttEvent.complete st.currentTranscription]
     else [],
     false)
  else
    match msg.inputTranscriptionText with
    | none => (st, [], false)
    | some textChunk =>
      if textChunk = "" then (st, [], false)
      else if jsTrim textChunk = "" ∨ jsTrim textChunk = "<noise>" then (st, [], false)
      else
        let ct := st.currentTranscription ++ textChunk
        ({ st with currentTranscription := ct },
         if st.hasOnTranscriptionUpdate then [SttEvent.update ct false] else [],
         true)

/-- The message type string of `conversation.item.input_audio_transcription.delta`. -/
def deltaType : String := "conversation.item.input_audio_transcription.delta"

/-- The message type string of `conversation.item.input_audio_transcription.completed`. -/
def completedType : String := "conversation.item.input_audio_transcription.completed"

/-- The vendor audio-artifact substring filtered out of delta updates. -/
def audioArtifact : String := "vq_lbr_audio_"

/-- The OpenAI/default arm of `handleMessage`. -/
def openaiArm (msg : SttMessage) (st : AskSttService) :
    AskSttService × List SttEvent × Bool :=
  let text := firstTruthy [msg.transcript, msg.delta, msg.altTranscript]
  if msg.msgType = some deltaType then
    let ct := st.currentTranscription ++ text
    ({ st with currentTranscription := ct },
     if text ≠ "" ∧ jsIncludes text audioArtifact = false ∧ st.hasOnTranscriptionUpdate then
       [SttEvent.update ct false]
     else [],
     true)
  else if msg.msgType = some completedType then
    if text ≠ "" ∧ jsTrim text ≠ "" then
      let ct := jsTrim text
      ({ st with currentTranscription := ct },
       (if st.hasOnTranscriptionUpdate then [SttEvent.update ct true] else [])
         ++ (if st.hasOnTranscriptionComplete then [SttEvent.complete ct] else []),
       true)
    else (st, [], true)
  else (st, [], true)

/-- The `if (message.error)` tail shared by the provider arms: a truthy error
field emits an `Error` event unless the arm returned early. -/
def errorTail (msg : SttMessage) (r : AskSttService × List SttEvent × Bool) :
    AskSttService × List SttEvent :=
  match msg.error, r with
  | some e, (st1, evs, true) =>
    (st1, evs ++ (if st1.hasOnError then [SttEvent.errorEv e] else []))
  | _, (st1, evs, _) => (st1, evs)

/-- `handleMessage` of `AskSttService.initializeSession`: ignore messages after
close (`modelInfo` null), dispatch on the provider, then run the
`message.error` tail unless the arm returned early. -/
def handleMessage (msg : SttMessage) (st : AskSttService) : AskSttService × List SttEvent :=
  match st.modelInfo with
  | none => (st, [])
  | some provider =>
    errorTail msg
      (if provider = "whisper" then whisperArm msg st
       else if provider = "deepgram" then deepgramArm msg st
       else if provider = "gemini" then geminiArm msg st
       else openaiArm msg st)

/-- `AskSttService.startListening`: throws without a session, warns and returns
when already listening, otherwise starts listening, clears the accumulator and
emits a `listening` status. -/
def startListening (st : AskSttService) : Except String (AskSttService × List SttEvent) :=
  if st.sttSession = false then .error "STT session not initialized"
  else if st.isListening then .ok (st, [])
  else
    .ok ({ st with isListening := true, currentTranscription := "" },
         if st.hasOnStatusUpdate then [SttEvent.status "listening"] else [])

/-- `AskSttService.stopListening`. -/
def stopListening (st : AskSttService) : AskSttService × List SttEvent :=
  if st.isListening = false then (st, [])
  else ({ st with isListening := false },
        if st.hasOnStatusUpdate then [SttEvent.status "stopped"] else [])

/-- `AskSttService.closeSession`: releases the adapter (errors from the inner
close are caught), clears all session state, and unconditionally emits the
`disconnected` status when the status callback is registered. -/
def closeSession (st : AskSttService) : AskSttService × List SttEvent :=
  ({ st with sttSession := false, isListening := false,
             currentTranscription := "", modelInfo := none },
   if st.hasOnStatusUpdate then [SttEvent.status "disconnected"] else [])

/-- The externally reachable operations of `AskSttService` that touch session
state (`initializeSession`, which installs the session and never touches the
accumulator, is the setup that produces the initial state). -/
inductive SttOp where
  | handleMsg (m : SttMessage)
  | startListening
  | stopListening
  | closeSession
  | sendAudio (data : String)
deriving DecidableEq

/-- One operation of `AskSttService`; `.error` models a thrown exception.
`sendAudio` models `sendAudioData`, which throws when no session is active or
the service is not listening and otherwise forwards the payload to the adapter
without touching local state. -/
def sttStep : SttOp → AskSttService → Except String (AskSttService × List SttEvent)
  | .handleMsg m, st => .ok (handleMessage m st)
  | .startListening, st => startListening st
  | .stopListening, st => .ok (stopListening st)
  | .closeSession, st => .ok (closeSession st)
  | .sendAudio _, st =>
    if st.sttSession = false then .error "STT session not active"
    else if st.isListening = false then .error "Not currently listening"
    else .ok (st, [])

/-- The service state after an operation; a thrown operation leaves the state
unchanged (all throws in the source happen before any mutation). -/
def stateAfter (op : SttOp) (st : AskSttService) : AskSttService :=
  match sttStep op st with
  | .ok (st1, _) => st1
  | .error _ => st

/-- Whether an event list raises a Final (`onTranscriptionComplete`) event. -/
def raisesFinal (evs : List SttEvent) : Bool :=
  evs.any fun e => match e with | .complete _ => true | _ => false

/-- Number of `StatusChanged s` events in a list. -/
def countStatus (s : String) (evs : List SttEvent) : ℕ :=
  (evs.filter fun e => e == SttEvent.status s).length

/-- A live whisper session with all callbacks registered. -/
def sttWitnessState : AskSttService :=
  { sttSession := true, isListening := true, currentTranscription := "",
    modelInfo := some "whisper", hasOnTranscriptionUpdate := true,
    hasOnTranscriptionComplete := true, hasOnStatusUpdate := true, hasOnError := true }

/-- A live session holding a non-empty accumulator, not currently listening. -/
def sttAccumState : AskSttService :=
  { sttWitnessState with currentTranscription := "draft words", isListening := false }

/- ===================== AskService (askService.js) ===================== -/

/-- One entry of a structured user-message `content` array. -/
inductive ContentPart where
  | text (s : String)
  | imageUrl (url : String)
deriving DecidableEq

/-- A chat message content: either a plain string or a structured part list. -/
inductive MsgContent where
  | str (s : String)
  | parts (ps : List ContentPart)
deriving DecidableEq

/-- One message of the list handed to `streamChat`. -/
structure ChatMessage where
  role : String
  content : MsgContent
deriving DecidableEq

/-- The message list built by `sendMessage`: the system prompt followed by the
user request, with the screenshot attached as an `image_url` part when one was
captured. -/
def buildAskMessages (systemPrompt userPrompt : String)
    (screenshotBase64 : Option String) : List ChatMessage :=
  [{ role := "system", content := .str systemPrompt },
   { role := "user",
     content := .parts ([.text ("User Request: " ++ jsTrim userPrompt)] ++
       (match screenshotBase64 with
        | some b => [.imageUrl ("data:image/jpeg;base64," ++ b)]
        | none => [])) }]

/-- The text-only message list rebuilt for the multimodal-fallback retry: the
same `systemPrompt` value, and the user request as a plain string with no
image part. -/
def textOnlyMessages (systemPrompt userPrompt : String) : List ChatMessage :=
  [{ role := "system", content := .str systemPrompt },
   { role := "user", content := .str ("User Request: " ++ jsTrim userPrompt) }]

/-- `AskService._isMultimodalError`: classify an error message by lower-cased
substring matching. -/
def isMultimodalError (errMsg : String) : Bool :=
  let m := jsToLower errMsg
  jsIncludes m "vision" || jsIncludes m "image" || jsIncludes m "multimodal" ||
  jsIncludes m "unsupported" || jsIncludes m "image_url" || jsIncludes m "400" ||
  jsIncludes m "invalid" || jsIncludes m "not supported"

/-- Outcome of one `streamChat` call (a rejected call carries its error
message; deliberate cancellations are absorbed inside `_processStream` and
never surface as a rejection of the call itself). -/
inductive StreamCallResult where
  | ok
  | error (msg : String)
deriving DecidableEq

/-- Terminal outcome of the streaming phase of one `sendMessage` turn. -/
inductive TurnResult where
  | streamedOk
  | fallbackStreamedOk
  | failed (msg : String)
deriving DecidableEq

/-- The try/catch structure of the streaming phase of `sendMessage`: a failed
first call retries once without the image exactly when a screenshot was
attached and `_isMultimodalError` matches; any other error, and any error of
the retry itself, is a terminal turn failure. -/
def sendMessageStreamPhase (screenshotBase64 : Option String)
    (firstCall fallbackCall : StreamCallResult) : TurnResult :=
  match firstCall with
  | .ok => .streamedOk
  | .error m =>
    if screenshotBase64.isSome = true ∧ isMultimodalError m = true then
      match fallbackCall with
      | .ok => .fallbackStreamedOk
      | .error m2 => .failed m2
    else .failed m

/-- The message lists handed to `streamChat`, in order, during the streaming
phase of one turn. -/
def streamAttempts (systemPrompt userPrompt : String) (screenshotBase64 : Option String)
    (firstCall : StreamCallResult) : List (List ChatMessage) :=
  match firstCall with
  | .ok => [buildAskMessages systemPrompt userPrompt screenshotBase64]
  | .error m =>
    if screenshotBase64.isSome = true ∧ isMultimodalError m = true then
      [buildAskMessages systemPrompt userPrompt screenshotBase64,
       textOnlyMessages systemPrompt userPrompt]
    else [buildAskMessages systemPrompt userPrompt screenshotBase64]

/-- Whether a content part is an image attachment. -/
def partHasImage : ContentPart → Bool
  | .imageUrl _ => true
  | .text _ => false

/-- Whether a chat message carries an image attachment. -/
def messageHasImage (m : ChatMessage) : Bool :=
  match m.content with
  | .str _ => false
  | .parts ps => ps.any partHasImage

/-- Whether any message of a list carries an image attachment. -/
def messagesHaveImage (ms : List ChatMessage) : Bool := ms.any messageHasImage

/-- The `ConversationState` record owned by `AskService` (visibility flag
omitted: it is managed by the window toggles, not the streaming phase). -/
structure AskState where
  isLoading : Bool
  isStreaming : Bool
  currentQuestion : String
  currentResponse : String
  conversationalResponse : String
  showTextInput : Bool
  isListening : Bool
  sttTranscription : String
deriving DecidableEq

/-- The payload of the `ask:conversationalResponse` event handed to the TTS
side of the ask window. -/
structure TtsHandoff where
  text : String
  originalResponse : String
deriving DecidableEq

/-- The apostrophe character (U+0027). -/
def apostropheChar : Char := Char.ofNat 39

/-- The fixed fallback of `_generateConversationalResponseInParallel`:
the string literal of the source catch branch. -/
def conversationalFallback : String :=
  "I" ++ String.singleton apostropheChar ++ "ll help you with that."

/-- Outcome of the conversational streaming call: either the accumulated raw
token text of a completed stream, or any thrown failure. -/
inductive ConvOutcome where
  | streamed (raw : String)
  | errored
deriving DecidableEq

/-- `AskService._generateConversationalResponseInParallel`: a completed stream
resolves to its trimmed accumulated text; any failure is caught and resolves
to the fixed fallback string.  The promise never rejects. -/
def generateConversationalResponse : ConvOutcome → String
  | .streamed raw => jsTrim raw
  | .errored => conversationalFallback

/-- The `conversationalPromise` handling in `sendMessage`: a truthy resolved
value is merged into `ConversationState` and handed to the TTS collaborator
together with the primary response. -/
def handleConversationalResult (st : AskState) (resp : String) :
    AskState × List TtsHandoff :=
  if resp ≠ "" then
    ({ st with conversationalResponse := resp },
     [{ text := resp, originalResponse := st.currentResponse }])
  else (st, [])

/- ============== AskAudioCapture segmentation (src/unnamed/part_004) ============== -/

/-- Capture sample rate (`this.SAMPLE_RATE = 24000`). -/
def SAMPLE_RATE : ℚ := 24000

/-- `SILENCE_THRESHOLD_FRAMES`: silence frames before a segment ends. -/
def SILENCE_THRESHOLD_FRAMES : ℕ := 5

/-- `VOICE_THRESHOLD_FRAMES`: voice frames before a segment starts. -/
def VOICE_THRESHOLD_FRAMES : ℕ := 2

/-- `MAX_SEGMENT_DURATION`: hard cap in seconds. -/
def MAX_SEGMENT_DURATION : ℚ := 30

/-- `MIN_SEGMENT_DURATION`: minimum emitted duration in seconds. -/
def MIN_SEGMENT_DURATION : ℚ := 1 / 2

/-- Segmentation state of `AskAudioCapture`.  `emitted` is the history of
payloads handed to `sendVoiceSegmentToSTT`, recorded so that emissions are
observable; the source performs the asynchronous send at exactly these
points. -/
structure SegState where
  currentSegment : List ℚ
  isCurrentlyVoice : Bool
  silenceFrameCount : ℕ
  voiceFrameCount : ℕ
  emitted : List (List ℚ)
deriving DecidableEq

/-- The constructor state of `AskAudioCapture`. -/
def initSegState : SegState :=
  { currentSegment := [], isCurrentlyVoice := false,
    silenceFrameCount := 0, voiceFrameCount := 0, emitted := [] }

/-- `AskAudioCapture.endVoiceSegment`: a no-op while not in voice mode;
otherwise emit the segment exactly when its duration meets
`MIN_SEGMENT_DURATION` (discard it silently otherwise) and reset. -/
def endVoiceSegment (st : SegState) : SegState :=
  if st.isCurrentlyVoice = false then st
  else
    let segmentDuration : ℚ := (st.currentSegment.length : ℚ) / SAMPLE_RATE
    let st1 :=
      if MIN_SEGMENT_DURATION ≤ segmentDuration then
        { st with emitted := st.emitted ++ [st.currentSegment] }
      else st
    { st1 with isCurrentlyVoice := false, currentSegment := [],
               voiceFrameCount := 0, silenceFrameCount := 0 }

/-- `AskAudioCapture.handleVoiceSegment`: append the chunk, run the
voice/silence hysteresis, then force-finalize when the accumulated duration
reaches `MAX_SEGMENT_DURATION`.  (The real-time UI update the source performs
with the voice level is an external effect and is not part of the state.) -/
def handleVoiceSegment (audioChunk : List ℚ) (hasVoice : Bool) (st : SegState) : SegState :=
  let st1 := { st with currentSegment := st.currentSegment ++ audioChunk }
  let st2 :=
    if hasVoice then
      let s := { st1 with voiceFrameCount := st1.voiceFrameCount + 1, silenceFrameCount := 0 }
      if s.isCurrentlyVoice = false ∧ VOICE_THRESHOLD_FRAMES ≤ s.voiceFrameCount then
        { s with isCurrentlyVoice := true }
      else s
    else
      let s := { st1 with silenceFrameCount := st1.silenceFrameCount + 1, voiceFrameCount := 0 }
      if s.isCurrentlyVoice = true ∧ SILENCE_THRESHOLD_FRAMES ≤ s.silenceFrameCount then
        endVoiceSegment s
      else s
  let segmentDuration : ℚ := (st2.currentSegment.length : ℚ) / SAMPLE_RATE
  if MAX_SEGMENT_DURATION ≤ segmentDuration then endVoiceSegment st2 else st2

/-- `AskAudioCapture.stopCapture` restricted to segmentation state: finalize a
segment in progress, then clean up the buffers. -/
def stopCapture (st : SegState) : SegState :=
  let st1 := if st.isCurrentlyVoice = true then endVoiceSegment st else st
  { st1 with currentSegment := [], isCurrentlyVoice := false,
             voiceFrameCount := 0, silenceFrameCount := 0 }

/-- One input to the segmentation engine: a 100 ms chunk with its VAD decision,
or a stop of the capture. -/
inductive SegOp where
  | frame (chunk : List ℚ) (hasVoice : Bool)
  | stop
deriving DecidableEq

/-- Apply one segmentation input. -/
def segStep (st : SegState) : SegOp → SegState
  | .frame c v => handleVoiceSegment c v st
  | .stop => stopCapture st

/-- Run a sequence of segmentation inputs. -/
def runSeg (ops : List SegOp) (st : SegState) : SegState := ops.foldl segStep st

/-- Every payload ever handed to `sendVoiceSegmentToSTT` meets the minimum
segment duration. -/
def emittedMinOk (st : SegState) : Bool :=
  st.emitted.all fun s => decide (MIN_SEGMENT_DURATION ≤ (s.length : ℚ) / SAMPLE_RATE)

/-- A 100 ms capture chunk (`samplesPerChunk = 24000 * 0.1` samples). -/
def chunk100ms : List ℚ := List.replicate 2400 0

/-- The trace of `k` consecutive voiced 100 ms chunks from the initial state. -/
def voicedRun (k : ℕ) : SegState :=
  runSeg (List.replicate k (SegOp.frame chunk100ms true)) initSegState

/- ===================== Voice level meter (src/unnamed/part_004) ===================== -/

/-- `VOICE_LEVEL_HISTORY_SIZE`. -/
def VOICE_LEVEL_HISTORY_SIZE : ℕ := 10

/-- `VOICE_LEVEL_SMOOTHING` (0.3). -/
def VOICE_LEVEL_SMOOTHING : ℚ := 3 / 10

/-- `VOICE_LEVEL_MIN` (0.005). -/
def VOICE_LEVEL_MIN : ℚ := 1 / 200

/-- `VOICE_LEVEL_MAX` (0.1). -/
def VOICE_LEVEL_MAX : ℚ := 1 / 10

/-- Voice level tracking state of `AskAudioCapture`. -/
structure VoiceLevelState where
  currentVoiceLevel : ℚ
  smoothedVoiceLevel : ℚ
  voiceLevelHistory : List ℚ
deriving DecidableEq

/-- `AskAudioCapture.updateSmoothedVoiceLevel`: exponential smoothing toward
the mean of the rolling history. -/
def updateSmoothedVoiceLevel (st : VoiceLevelState) : VoiceLevelState :=
  let avgLevel : ℚ :=
    if 0 < st.voiceLevelHistory.length then
      (st.voiceLevelHistory.foldl (· + ·) 0) / (st.voiceLevelHistory.length : ℚ)
    else 0
  { st with smoothedVoiceLevel :=
      st.smoothedVoiceLevel * (1 - VOICE_LEVEL_SMOOTHING) + avgLevel * VOICE_LEVEL_SMOOTHING }

/-- `AskAudioCapture.calculateVoiceLevel`.  `sqrtApprox` abstracts `Math.sqrt`
(the only irrational primitive of the meter); the empty/absent-frame branch
never reaches it. -/
def calculateVoiceLevel (sqrtApprox : ℚ → ℚ) (audioData : Option (List ℚ))
    (st : VoiceLevelState) : ℚ × VoiceLevelState :=
  match audioData with
  | none =>
    let st1 := updateSmoothedVoiceLevel { st with currentVoiceLevel := 0 }
    (0, st1)
  | some data =>
    if data.length = 0 then
      let st1 := updateSmoothedVoiceLevel { st with currentVoiceLevel := 0 }
      (0, st1)
    else
      let sumOfSquares := (data.map fun x => x * x).foldl (· + ·) 0
      let rms := sqrtApprox (sumOfSquares / (data.length : ℚ))
      let lvl := min 1 (max 0 ((rms - VOICE_LEVEL_MIN) / (VOICE_LEVEL_MAX - VOICE_LEVEL_MIN)))
      let hist0 := st.voiceLevelHistory ++ [lvl]
      let hist := if VOICE_LEVEL_HISTORY_SIZE < hist0.length then hist0.drop 1 else hist0
      let st1 := updateSmoothedVoiceLevel
        { st with currentVoiceLevel := lvl, voiceLevelHistory := hist }
      (st1.smoothedVoiceLevel, st1)

/-- A fresh voice level state. -/
def voiceLevelInit : VoiceLevelState :=
  { currentVoiceLevel := 0, smoothedVoiceLevel := 0, voiceLevelHistory := [] }

/- ============ PCM16 encoding and base64 (src/unnamed/part_004, askAudioCapture.js) ============ -/

/-- Truncation toward zero, the rounding a JavaScript `Int16Array` store
applies to a number already in range. -/
def jsTruncToInt (q : ℚ) : ℤ :=
  if q < 0 then -(⌊-q⌋) else ⌊q⌋

/-- The clamp of `convertFloat32ToInt16`: `Math.max(-1, Math.min(1, x))`. -/
def clampSample (x : ℚ) : ℚ := max (-1) (min 1 x)

/-- One sample of `convertFloat32ToInt16`:
`int16Array[i] = s < 0 ? s * 0x8000 : s * 0x7fff` with the `Int16Array` store
truncating toward zero (the value is always in range, so no wrapping occurs). -/
def encodeSample (x : ℚ) : ℤ :=
  let s := clampSample x
  if s < 0 then jsTruncToInt (s * 32768) else jsTruncToInt (s * 32767)

/-- `convertFloat32ToInt16`. -/
def convertFloat32ToInt16 (samples : List ℚ) : List ℤ :=
  samples.map encodeSample

/-- The little-endian byte pair of one stored int16 value, as a `Uint8Array`
view of the `Int16Array` buffer exposes it. -/
def int16ToBytes (n : ℤ) : List ℕ :=
  let u := (n % 65536).toNat
  [u % 256, u / 256]

/-- The byte sequence of the `Int16Array` buffer. -/
def int16sToBytes (l : List ℤ) : List ℕ := l.flatMap int16ToBytes

/-- The 64-character base64 alphabet used by `btoa`. -/
def base64Alphabet : List Char :=
  "ABCDEFGHIJKLMNOPQRSTUVWXYZabcdefghijklmnopqrstuvwxyz0123456789+/".data

/-- Character of one six-bit value. -/
def b64Char (n : ℕ) : Char := base64Alphabet.getD n 'A'

/-- The padding character of base64 output. -/
def padChar : Char := Char.ofNat 61

/-- The six-bit groups of a byte sequence, three bytes to four sextets. -/
def toSextets : List ℕ → List ℕ
  | b1 :: b2 :: b3 :: rest =>
    b1 / 4 :: (b1 % 4 * 16 + b2 / 16) :: (b2 % 16 * 4 + b3 / 64) :: b3 % 64 :: toSextets rest
  | [b1, b2] => [b1 / 4, b1 % 4 * 16 + b2 / 16, b2 % 16 * 4]
  | [b1] => [b1 / 4, b1 % 4 * 16]
  | [] => []

/-- The `=` padding appended by `btoa`, keyed by `length % 3`. -/
def b64Padding : ℕ → List Char
  | 1 => [padChar, padChar]
  | 2 => [padChar]
  | _ => []

/-- The character sequence `btoa` produces for a byte sequence. -/
def encodeB64 (bytes : List ℕ) : List Char :=
  (toSextets bytes).map b64Char ++ b64Padding (bytes.length % 3)

/-- `arrayBufferToBase64`: build the byte-per-character binary string and
base64-encode it with `btoa`. -/
def arrayBufferToBase64 (pcm : List ℤ) : String :=
  String.mk (encodeB64 (int16sToBytes pcm))

/-- Modelled from the spec: the decoding direction of the round-trip property
(base64 decode, as `atob`/`Buffer.from(data, 'base64')` perform it) is not part
of the capture source; six-bit value of one base64 character. -/
def b64Index (c : Char) : ℕ := base64Alphabet.indexOf c

/-- Modelled from the spec: recombine six-bit groups into bytes, four sextets
to three bytes, inverting `toSextets`. -/
def decodeSextets : List ℕ → List ℕ
  | s1 :: s2 :: s3 :: s4 :: rest =>
    (s1 * 4 + s2 / 16) :: (s2 % 16 * 16 + s3 / 4) :: (s3 % 4 * 64 + s4) :: decodeSextets rest
  | [s1, s2, s3] => [s1 * 4 + s2 / 16, s2 % 16 * 16 + s3 / 4]
  | [s1, s2] => [s1 * 4 + s2 / 16]
  | _ => []

/-- Modelled from the spec: standard base64 decoding of an encoded string. -/
def atobBytes (s : String) : List ℕ :=
  decodeSextets ((s.data.filter fun c => c != padChar).map b64Index)

/-- Modelled from the spec: reinterpret little-endian byte pairs as signed
16-bit integers. -/
def bytesToInt16s : List ℕ → List ℤ
  | b0 :: b1 :: rest =>
    (let u := b0 + 256 * b1
     if 32768 ≤ u then (u : ℤ) - 65536 else (u : ℤ)) :: bytesToInt16s rest
  | _ => []

/-- Modelled from the spec: dequantize one stored int16 back to the sample
scale, inverting the asymmetric encoding factors. -/
def int16ToSample (n : ℤ) : ℚ :=
  if n < 0 then (n : ℚ) / 32768 else (n : ℚ) / 32767

/-- Modelled from the spec: full decoding direction of the round-trip. -/
def decodePcm16Base64 (s : String) : List ℚ :=
  (bytesToInt16s (atobBytes s)).map int16ToSample

/-- Sample sequence used to exercise the round-trip on concrete data. -/
def pcm16WitnessSamples : List ℚ := [1, -1, 1 / 2, -1 / 2, 0, 3 / 4]

/- ===================== Helper lemmas ===================== -/

theorem string_eq_empty_of_data_nil {a : String} (h : a.data = []) : a = "" := by
  cases a
  simp_all

theorem string_append_ne_empty (a b : String) (h : a ≠ "") : a ++ b ≠ "" := by
  intro hab
  apply h
  apply string_eq_empty_of_data_nil
  have hd : (a ++ b).data = [] := by rw [hab]
  rw [String.data_append] at hd
  exact (List.append_eq_nil.mp hd).1

theorem string_ne_empty_of_two_lt_length (a : String) (h : 2 < a.length) : a ≠ "" := by
  intro he
  rw [he] at h
  exact absurd h (by decide)

theorem jsTrim_empty : jsTrim "" = "" := rfl

/-- The state component of the error tail is the state the arm produced. -/
theorem errorTail_fst (msg : SttMessage) (r : AskSttService × List SttEvent × Bool) :
    (errorTail msg r).1 = r.1 := by
  rcases r with ⟨a, b, c⟩
  unfold errorTail
  rcases msg.error with _ | e <;> cases c <;> rfl

/-- The whisper arm never empties a non-empty accumulator. -/
theorem whisperArm_preserves_nonempty (msg : SttMessage) (st : AskSttService)
    (h : st.currentTranscription ≠ "") :
    (whisperArm msg st).1.currentTranscription ≠ "" := by
  unfold whisperArm
  rcases msg.text with _ | raw
  · exact h
  · dsimp only
    split_ifs with h1 h2 <;>
      first
        | exact h
        | exact string_ne_empty_of_two_lt_length _ h2.2

/-- The deepgram arm never empties a non-empty accumulator. -/
theorem deepgramArm_preserves_nonempty (msg : SttMessage) (st : AskSttService)
    (h : st.currentTranscription ≠ "") :
    (deepgramArm msg st).1.currentTranscription ≠ "" := by
  unfold deepgramArm
  rcases msg.channelTranscript with _ | text
  · exact h
  · dsimp only
    split_ifs with h1 h2 <;>
      first
        | exact h
        | (intro hx; apply h1; rw [show text = "" from hx]; exact jsTrim_empty)

/-- The gemini arm never empties a non-empty accumulator. -/
theorem geminiArm_preserves_nonempty (msg : SttMessage) (st : AskSttService)
    (h : st.currentTranscription ≠ "") :
    (geminiArm msg st).1.currentTranscription ≠ "" := by
  unfold geminiArm
  by_cases h1 : msg.turnComplete = true
  · rw [if_pos h1]
    split_ifs <;> exact h
  · rw [if_neg h1]
    rcases msg.inputTranscriptionText with _ | textChunk
    · exact h
    · dsimp only
      split_ifs <;>
        first
          | exact h
          | exact string_append_ne_empty _ _ h

/-- The OpenAI/default arm never empties a non-empty accumulator. -/
theorem openaiArm_preserves_nonempty (msg : SttMessage) (st : AskSttService)
    (h : st.currentTranscription ≠ "") :
    (openaiArm msg st).1.currentTranscription ≠ "" := by
  unfold openaiArm
  dsimp only
  split_ifs <;>
    first
      | exact h
      | exact string_append_ne_empty _ _ h
      | tauto

/-- `handleMessage` never empties a non-empty accumulator. -/
theorem handleMessage_preserves_nonempty (msg : SttMessage) (st : AskSttService)
    (h : st.currentTranscription ≠ "") :
    (handleMessage msg st).1.currentTranscription ≠ "" := by
  unfold handleMessage
  rcases hm : st.modelInfo with _ | provider
  · exact h
  · rw [errorTail_fst]
    split_ifs with h1 h2 h3
    · exact whisperArm_preserves_nonempty msg st h
    · exact deepgramArm_preserves_nonempty msg st h
    · exact geminiArm_preserves_nonempty msg st h
    · exact openaiArm_preserves_nonempty msg st h

/- ===================== C1 ===================== -/

/-- C1 counterexample: the raw whisper message `"a[MUSIC]b"` contains the
noise token `"[MUSIC]"` together with two extra legitimate characters and its
length 9 exceeds the length floor of 2, yet the whisper arm filters it (the
source tests `finalText.includes(pattern)`, not only exact equality), so no
Final transcription event is raised — contradicting the claim that such a
message is not filtered. -/
theorem whisper_contained_noise_token_not_final_cex :
    2 < (jsTrim "a[MUSIC]b").length
    ∧ jsIncludes (jsTrim "a[MUSIC]b") "[MUSIC]" = true
    ∧ jsTrim "a[MUSIC]b" ≠ "[MUSIC]"
    ∧ raisesFinal (handleMessage { text := some "a[MUSIC]b" } sttWitnessState).2 = false := by
  decide

/-- C1 (amended): in the whisper arm, a message whose trimmed text equals — or
merely contains — a configured noise token never raises a Final event; a
message whose trimmed text is non-empty, contains no noise token, and is
longer than 2 characters raises a Final event. -/
theorem whisper_noise_filter_amended (st : AskSttService) (raw : String)
    (hp : st.modelInfo = some "whisper") (hc : st.hasOnTranscriptionComplete = true) :
    (noisePatterns.any (fun pat => jsIncludes (jsTrim raw) pat || jsTrim raw == pat) = true →
      raisesFinal (handleMessage { text := some raw } st).2 = false)
    ∧ (jsTrim raw ≠ "" →
       noisePatterns.any (fun pat => jsIncludes (jsTrim raw) pat || jsTrim raw == pat) = false →
       2 < (jsTrim raw).length →
       raisesFinal (handleMessage { text := some raw } st).2 = true) := by
  have hmsg : handleMessage { text := some raw } st
      = (fun r => (r.1, r.2.1)) (whisperArm { text := some raw } st) := by
    unfold handleMessage
    rw [hp]
    simp only [if_pos rfl]
    rcases whisperArm { text := some raw } st with ⟨a, b, c⟩
    unfold errorTail
    cases c <;> rfl
  rw [hmsg]
  unfold whisperArm
  dsimp only
  constructor
  · intro hnoise
    split_ifs with h1 h2 <;>
      first
        | rfl
        | exact absurd h2.1 (by rw [hnoise]; decide)
  · intro hne hnoise hlen
    split_ifs with h1 h2 <;>
      first
        | exact absurd h1 hne
        | exact absurd ⟨hnoise, hlen⟩ h2
        | simp [raisesFinal]

/-- C1 witness: a plain message passes the filter and raises a Final event. -/
theorem whisper_noise_filter_amended_witness :
    raisesFinal (handleMessage { text := some "hello there" } sttWitnessState).2 = true :=
  (whisper_noise_filter_amended sttWitnessState "hello there" rfl rfl).2
    (by decide) (by decide) (by decide)

/- ===================== C3 ===================== -/

/-- C3 counterexample: with the status callback registered, calling
`closeSession` twice in succession emits the disconnected status twice in
total (the emission is unconditional, outside the null-session guard) —
contradicting the claimed exactly-once behaviour. -/
theorem closeSession_twice_two_disconnected_cex :
    countStatus "disconnected"
      ((closeSession sttWitnessState).2
        ++ (closeSession (closeSession sttWitnessState).1).2) = 2 := by
  decide

/-- C3 (amended): `closeSession` never throws; a second call leaves the state
unchanged; and each call emits the disconnected status once when the status
callback is registered, so two calls in succession emit it twice (zero times
with no callback). -/
theorem closeSession_amended (st : AskSttService) :
    sttStep SttOp.closeSession st = .ok (closeSession st)
    ∧ (closeSession (closeSession st).1).1 = (closeSession st).1
    ∧ countStatus "disconnected"
        ((closeSession st).2 ++ (closeSession (closeSession st).1).2)
        = (if st.hasOnStatusUpdate then 2 else 0) := by
  refine ⟨rfl, rfl, ?_⟩
  by_cases h : st.hasOnStatusUpdate <;>
    simp [closeSession, countStatus, h]

/- ===================== C6 ===================== -/

/-- C6 counterexample: `startListening` on a live, non-listening session is
neither a Final/turn-complete event nor a session close, yet it clears the
non-empty `currentTranscription` accumulator — contradicting the claim that
the accumulator is reset on no other operation. -/
theorem startListening_clears_accumulator_cex :
    sttAccumState.currentTranscription ≠ ""
    ∧ (stateAfter SttOp.startListening sttAccumState).currentTranscription = "" := by
  decide

/-- C6 (amended): starting from a non-empty accumulator, an operation clears
`currentTranscription` exactly when it is `closeSession`, or `startListening`
on a live session that is not already listening.  In particular `handleMessage`
never clears it: Final events overwrite it with the non-empty final text, the
gemini turn-complete leaves it unchanged, and delta events append to it. -/
theorem currentTranscription_clear_characterization (st : AskSttService) (op : SttOp)
    (h : st.currentTranscription ≠ "") :
    ((stateAfter op st).currentTranscription = "" ↔
      op = SttOp.closeSession ∨
        (op = SttOp.startListening ∧ st.sttSession = true ∧ st.isListening = false)) := by
  cases op with
  | handleMsg m =>
    simp only [stateAfter, sttStep]
    constructor
    · intro hx
      exact absurd hx (handleMessage_preserves_nonempty m st h)
    · rintro (hcl | ⟨hsl, _, _⟩) <;> simp_all
  | startListening =>
    simp only [stateAfter, sttStep, startListening]
    by_cases hs : st.sttSession = false
    · rw [if_pos hs]
      constructor
      · intro hx
        exact absurd hx h
      · rintro (hcl | ⟨_, hs2, _⟩)
        · exact absurd hcl (by simp)
        · rw [hs2] at hs
          exact absurd hs (by simp)
    · rw [if_neg hs]
      by_cases hl : st.isListening
      · rw [if_pos hl]
        constructor
        · intro hx
          exact absurd hx h
        · rintro (hcl | ⟨_, _, hl2⟩)
          · exact absurd hcl (by simp)
          · rw [hl] at hl2
            exact absurd hl2 (by simp)
      · rw [if_neg hl]
        constructor
        · intro _
          refine Or.inr ⟨by trivial, ?_, ?_⟩
          · cases hv : st.sttSession
            · exact absurd hv hs
            · rfl
          · cases hv : st.isListening
            · rfl
            · exact absurd hv hl
        · intro _
          trivial
  | stopListening =>
    simp only [stateAfter, sttStep, stopListening]
    split_ifs <;>
      (constructor
       · intro hx
         exact absurd hx h
       · rintro (hcl | ⟨hsl, _, _⟩) <;> simp_all)
  | closeSession =>
    simp [stateAfter, sttStep, closeSession]
  | sendAudio d =>
    simp only [stateAfter, sttStep]
    split_ifs <;>
      (constructor
       · intro hx
         exact absurd hx h
       · rintro (hcl | ⟨hsl, _, _⟩) <;> simp_all)

/-- C6 witness: on a live session holding a non-empty accumulator,
`closeSession` clears the accumulator, as the characterization states. -/
theorem currentTranscription_clear_characterization_witness :
    (stateAfter SttOp.closeSession sttAccumState).currentTranscription = "" :=
  (currentTranscription_clear_characterization sttAccumState SttOp.closeSession
    (by decide)).mpr (Or.inl rfl)

/- ===================== C2 ===================== -/

/-- C2: when the primary streamed call with an attached image fails with an
error `_isMultimodalError` classifies as multimodal-related, exactly one retry
is made: the attempt list gains exactly the text-only message list, which has
no image part and the identical system prompt at its head, and a successful
retry completes the turn; an error not so classified, or any error when no
image was attached, propagates as a terminal turn failure with no retry. -/
theorem multimodal_fallback_retry_once (sys u img m : String) (fb : StreamCallResult) :
    (isMultimodalError m = true →
      streamAttempts sys u (some img) (.error m)
        = [buildAskMessages sys u (some img), textOnlyMessages sys u]
      ∧ messagesHaveImage (textOnlyMessages sys u) = false
      ∧ messagesHaveImage (buildAskMessages sys u (some img)) = true
      ∧ (textOnlyMessages sys u).head? = some { role := "system", content := .str sys }
      ∧ (buildAskMessages sys u (some img)).head?
          = some { role := "system", content := .str sys }
      ∧ sendMessageStreamPhase (some img) (.error m) .ok = .fallbackStreamedOk)
    ∧ (isMultimodalError m = false →
      sendMessageStreamPhase (some img) (.error m) fb = .failed m
      ∧ streamAttempts sys u (some img) (.error m) = [buildAskMessages sys u (some img)])
    ∧ (sendMessageStreamPhase none (.error m) fb = .failed m
      ∧ streamAttempts sys u none (.error m) = [buildAskMessages sys u none]) := by
  refine ⟨?_, ?_, ?_⟩
  · intro hm
    refine ⟨?_, ?_, ?_, ?_, ?_, ?_⟩ <;>
      simp [streamAttempts, sendMessageStreamPhase, textOnlyMessages, buildAskMessages,
            messagesHaveImage, messageHasImage, partHasImage, hm]
  · intro hm
    constructor <;> simp [streamAttempts, sendMessageStreamPhase, hm]
  · constructor <;> simp [streamAttempts, sendMessageStreamPhase]

/-- C2 witness: a concrete error message containing `unsupported` triggers the
single image-stripped retry reusing the identical system prompt. -/
theorem multimodal_fallback_retry_once_witness :
    streamAttempts "SYS" "what is on screen" (some "IMGDATA") (.error "unsupported image type")
      = [buildAskMessages "SYS" "what is on screen" (some "IMGDATA"),
         textOnlyMessages "SYS" "what is on screen"]
    ∧ messagesHaveImage (textOnlyMessages "SYS" "what is on screen") = false
    ∧ messagesHaveImage (buildAskMessages "SYS" "what is on screen" (some "IMGDATA")) = true
    ∧ (textOnlyMessages "SYS" "what is on screen").head?
        = some { role := "system", content := .str "SYS" }
    ∧ (buildAskMessages "SYS" "what is on screen" (some "IMGDATA")).head?
        = some { role := "system", content := .str "SYS" }
    ∧ sendMessageStreamPhase (some "IMGDATA") (.error "unsupported image type") .ok
        = .fallbackStreamedOk :=
  (multimodal_fallback_retry_once "SYS" "what is on screen" "IMGDATA"
    "unsupported image type" .ok).1 (by decide)

/- ===================== C10 ===================== -/

/-- C10: the parallel conversational generation resolves to the fixed fallback
string on any failure of its streaming call (it never rejects), and that
fallback — being non-empty — is merged into `ConversationState` and handed to
the TTS collaborator through the very same path as a generated response. -/
theorem conversational_fallback_merged (st : AskState) :
    generateConversationalResponse .errored = conversationalFallback
    ∧ (handleConversationalResult st (generateConversationalResponse .errored)).1
        = { st with conversationalResponse := conversationalFallback }
    ∧ (handleConversationalResult st (generateConversationalResponse .errored)).2
        = [{ text := conversationalFallback, originalResponse := st.currentResponse }] := by
  have hne : conversationalFallback ≠ "" := by decide
  refine ⟨rfl, ?_, ?_⟩ <;>
    simp [handleConversationalResult, generateConversationalResponse, hne]

/- ===================== Segmentation helper lemmas ===================== -/

/-- The maximum-duration test of `handleVoiceSegment` in terms of the sample
count. -/
theorem max_duration_iff (n : ℕ) :
    (MAX_SEGMENT_DURATION ≤ (n : ℚ) / SAMPLE_RATE) ↔ 720000 ≤ n := by
  unfold MAX_SEGMENT_DURATION SAMPLE_RATE
  rw [le_div_iff (by norm_num : (0 : ℚ) < 24000)]
  norm_cast

/-- The minimum-duration test of `endVoiceSegment` in terms of the sample
count. -/
theorem min_duration_iff (n : ℕ) :
    (MIN_SEGMENT_DURATION ≤ (n : ℚ) / SAMPLE_RATE) ↔ 12000 ≤ n := by
  unfold MIN_SEGMENT_DURATION SAMPLE_RATE
  rw [div_le_div_iff (by norm_num) (by norm_num : (0 : ℚ) < 24000)]
  norm_cast
  omega

/-- `endVoiceSegment` is a no-op outside voice mode. -/
theorem endVoiceSegment_not_voice (st : SegState) (h : st.isCurrentlyVoice = false) :
    endVoiceSegment st = st := by
  unfold endVoiceSegment
  rw [if_pos h]

/-- The guarded finalization `if d then endVoiceSegment st else st` is a no-op
outside voice mode whatever the guard. -/
theorem capGuard_not_voice (d : Prop) [Decidable d] (st : SegState)
    (hv : st.isCurrentlyVoice = false) :
    (if d then endVoiceSegment st else st) = st := by
  split_ifs with h
  · exact endVoiceSegment_not_voice st hv
  · rfl

/-- `endVoiceSegment` preserves the minimum-duration property of the emitted
history: a segment is appended only under the minimum-duration test. -/
theorem emittedMinOk_endVoiceSegment (st : SegState) (h : emittedMinOk st = true) :
    emittedMinOk (endVoiceSegment st) = true := by
  unfold endVoiceSegment
  dsimp only
  split_ifs with h1 h2
  · exact h
  · unfold emittedMinOk at h ⊢
    simp only [List.all_append, List.all_cons, List.all_nil, h, Bool.true_and, Bool.and_true]
    exact decide_eq_true h2
  · exact h

/-- `handleVoiceSegment` preserves the minimum-duration property. -/
theorem emittedMinOk_handleVoiceSegment (c : List ℚ) (v : Bool) (st : SegState)
    (h : emittedMinOk st = true) :
    emittedMinOk (handleVoiceSegment c v st) = true := by
  unfold handleVoiceSegment
  dsimp only
  split_ifs <;>
    first
      | exact h
      | exact emittedMinOk_endVoiceSegment _ h
      | exact emittedMinOk_endVoiceSegment _ (emittedMinOk_endVoiceSegment _ h)

/-- `stopCapture` preserves the minimum-duration property. -/
theorem emittedMinOk_stopCapture (st : SegState) (h : emittedMinOk st = true) :
    emittedMinOk (stopCapture st) = true := by
  unfold stopCapture
  dsimp only
  split_ifs <;>
    first
      | exact h
      | exact emittedMinOk_endVoiceSegment _ h

/-- Every segmentation input preserves the minimum-duration property. -/
theorem emittedMinOk_segStep (st : SegState) (op : SegOp) (h : emittedMinOk st = true) :
    emittedMinOk (segStep st op) = true := by
  cases op with
  | frame c v => exact emittedMinOk_handleVoiceSegment c v st h
  | stop => exact emittedMinOk_stopCapture st h

/-- Any run of segmentation inputs preserves the minimum-duration property. -/
theorem emittedMinOk_runSeg (ops : List SegOp) (st : SegState) (h : emittedMinOk st = true) :
    emittedMinOk (runSeg ops st) = true := by
  induction ops generalizing st with
  | nil => exact h
  | cons op rest ih =>
    unfold runSeg at ih ⊢
    rw [List.foldl_cons]
    exact ih _ (emittedMinOk_segStep st op h)

/- ===================== C4 ===================== -/

/-- C4: for every sequence of frames (and stops) fed to the segmentation
engine from its initial state, every segment emitted downstream to STT has
duration at least `MIN_SEGMENT_DURATION`; shorter segments are never
emitted. -/
theorem segment_min_duration_invariant (ops : List SegOp) :
    ((runSeg ops initSegState).emitted.all fun s =>
      decide (MIN_SEGMENT_DURATION ≤ (s.length : ℚ) / SAMPLE_RATE)) = true :=
  emittedMinOk_runSeg ops initSegState rfl

/- ===================== C9 ===================== -/

/-- One voiced chunk into an inactive engine with a zero voice counter leaves
it inactive (one frame is below the start threshold of 2). -/
theorem handleVoice_first_voiced (c : List ℚ) (st : SegState)
    (hv : st.isCurrentlyVoice = false) (hf : st.voiceFrameCount = 0) :
    (handleVoiceSegment c true st).isCurrentlyVoice = false
    ∧ (handleVoiceSegment c true st).voiceFrameCount = 1
    ∧ (handleVoiceSegment c true st).emitted = st.emitted := by
  unfold handleVoiceSegment
  dsimp only
  rw [if_pos rfl]
  rw [if_neg (show ¬(st.isCurrentlyVoice = false ∧
      VOICE_THRESHOLD_FRAMES ≤ st.voiceFrameCount + 1) from by
    rintro ⟨_, hc⟩
    rw [hf] at hc
    exact absurd hc (by decide))]
  rw [capGuard_not_voice]
  exact ⟨hv, by rw [hf], rfl⟩
  exact hv

/-- A no-voice chunk into an inactive engine keeps it inactive, resets the
voice counter, and emits nothing. -/
theorem handleVoice_silence_inactive (c : List ℚ) (st : SegState)
    (hv : st.isCurrentlyVoice = false) :
    (handleVoiceSegment c false st).isCurrentlyVoice = false
    ∧ (handleVoiceSegment c false st).voiceFrameCount = 0
    ∧ (handleVoiceSegment c false st).emitted = st.emitted := by
  unfold handleVoiceSegment
  dsimp only
  rw [if_neg (show ¬((false : Bool) = true) from by simp)]
  rw [if_neg (show ¬(st.isCurrentlyVoice = true ∧
      SILENCE_THRESHOLD_FRAMES ≤ st.silenceFrameCount + 1) from by
    rintro ⟨hc, _⟩
    exact absurd hc (by rw [hv]; simp))]
  rw [capGuard_not_voice]
  exact ⟨hv, rfl, rfl⟩
  exact hv

/-- C9: a run of consecutive voiced frames shorter than the start threshold
(2 frames), followed by a no-voice frame, never enters the active-speech
state, starts no segment (nothing is emitted), and the no-voice frame resets
the voice-frame count to zero. -/
theorem short_voice_run_no_segment (st : SegState) (r : ℕ) (c c2 : List ℚ)
    (hv : st.isCurrentlyVoice = false) (hf : st.voiceFrameCount = 0)
    (hr : r < VOICE_THRESHOLD_FRAMES) :
    (runSeg (List.replicate r (SegOp.frame c true)) st).isCurrentlyVoice = false
    ∧ (runSeg (List.replicate r (SegOp.frame c true)) st).emitted = st.emitted
    ∧ (handleVoiceSegment c2 false
        (runSeg (List.replicate r (SegOp.frame c true)) st)).isCurrentlyVoice = false
    ∧ (handleVoiceSegment c2 false
        (runSeg (List.replicate r (SegOp.frame c true)) st)).voiceFrameCount = 0
    ∧ (handleVoiceSegment c2 false
        (runSeg (List.replicate r (SegOp.frame c true)) st)).emitted = st.emitted := by
  have hr2 : r = 0 ∨ r = 1 := by
    have : VOICE_THRESHOLD_FRAMES = 2 := rfl
    omega
  rcases hr2 with rfl | rfl
  · have hrun : runSeg (List.replicate 0 (SegOp.frame c true)) st = st := rfl
    rw [hrun]
    obtain ⟨s1, s2, s3⟩ := handleVoice_silence_inactive c2 st hv
    exact ⟨hv, rfl, s1, s2, s3⟩
  · have hrun : runSeg (List.replicate 1 (SegOp.frame c true)) st
        = handleVoiceSegment c true st := rfl
    rw [hrun]
    obtain ⟨a1, a2, a3⟩ := handleVoice_first_voiced c st hv hf
    obtain ⟨s1, s2, s3⟩ := handleVoice_silence_inactive c2 _ a1
    exact ⟨a1, a3, s1, s2, by rw [s3, a3]⟩

/- ===================== C5 ===================== -/

/-- One voiced 100 ms chunk while the accumulated duration stays below the
cap: the segment keeps accumulating, the hysteresis counters advance, and
nothing is emitted. -/
theorem voicedStep_below_cap (st : SegState) (r : ℕ)
    (hsf : st.silenceFrameCount = 0) (hvf : st.voiceFrameCount = r)
    (hic : st.isCurrentlyVoice = decide (2 ≤ r))
    (hlen : st.currentSegment.length = r * 2400) (hr : r + 1 < 300) :
    (handleVoiceSegment chunk100ms true st).emitted = st.emitted
    ∧ (handleVoiceSegment chunk100ms true st).currentSegment.length = (r + 1) * 2400
    ∧ (handleVoiceSegment chunk100ms true st).voiceFrameCount = r + 1
    ∧ (handleVoiceSegment chunk100ms true st).silenceFrameCount = 0
    ∧ (handleVoiceSegment chunk100ms true st).isCurrentlyVoice = decide (2 ≤ r + 1) := by
  have hlen2 : (st.currentSegment ++ chunk100ms).length = (r + 1) * 2400 := by
    rw [List.length_append, hlen]
    simp only [chunk100ms, List.length_replicate]
    omega
  unfold handleVoiceSegment
  dsimp only
  rw [if_pos rfl]
  by_cases hr2 : 2 ≤ r
  · have hic2 : st.isCurrentlyVoice = true := by rw [hic]; exact decide_eq_true hr2
    rw [if_neg (show ¬(st.isCurrentlyVoice = false ∧
        VOICE_THRESHOLD_FRAMES ≤ st.voiceFrameCount + 1) from by
      rintro ⟨hc, _⟩
      rw [hic2] at hc
      cases hc)]
    dsimp only
    rw [if_neg (show ¬(MAX_SEGMENT_DURATION ≤
        ((st.currentSegment ++ chunk100ms).length : ℚ) / SAMPLE_RATE) from by
      rw [max_duration_iff, hlen2]; omega)]
    refine ⟨rfl, hlen2, by rw [hvf], rfl, ?_⟩
    rw [hic2]
    symm
    exact decide_eq_true (by omega)
  · have hr0 : r = 0 ∨ r = 1 := by omega
    rcases hr0 with rfl | rfl
    · rw [if_neg (show ¬(st.isCurrentlyVoice = false ∧
          VOICE_THRESHOLD_FRAMES ≤ st.voiceFrameCount + 1) from by
        rintro ⟨_, hc⟩
        rw [hvf] at hc
        exact absurd hc (by decide))]
      dsimp only
      rw [if_neg (show ¬(MAX_SEGMENT_DURATION ≤
          ((st.currentSegment ++ chunk100ms).length : ℚ) / SAMPLE_RATE) from by
        rw [max_duration_iff, hlen2]; omega)]
      refine ⟨rfl, hlen2, by rw [hvf], rfl, by rw [hic]; decide⟩
    · rw [if_pos (show st.isCurrentlyVoice = false ∧
          VOICE_THRESHOLD_FRAMES ≤ st.voiceFrameCount + 1 from
        ⟨by rw [hic]; decide, by rw [hvf]; decide⟩)]
      dsimp only
      rw [if_neg (show ¬(MAX_SEGMENT_DURATION ≤
          ((st.currentSegment ++ chunk100ms).length : ℚ) / SAMPLE_RATE) from by
        rw [max_duration_iff, hlen2]; omega)]
      exact ⟨rfl, hlen2, by rw [hvf], rfl,
        show (true : Bool) = decide (2 ≤ 1 + 1) by decide⟩

/-- One voiced 100 ms chunk that brings the accumulated duration to the 30 s
cap: exactly one force-finalize fires, the 30 s segment is emitted, and the
engine restarts a fresh segment under the same voice run. -/
theorem voicedStep_at_cap (st : SegState)
    (hvf : st.voiceFrameCount = 299) (hic : st.isCurrentlyVoice = true)
    (hlen : st.currentSegment.length = 299 * 2400) :
    (handleVoiceSegment chunk100ms true st).emitted
        = st.emitted ++ [st.currentSegment ++ chunk100ms]
    ∧ (handleVoiceSegment chunk100ms true st).currentSegment = []
    ∧ (handleVoiceSegment chunk100ms true st).voiceFrameCount = 0
    ∧ (handleVoiceSegment chunk100ms true st).silenceFrameCount = 0
    ∧ (handleVoiceSegment chunk100ms true st).isCurrentlyVoice = false := by
  have hlen2 : (st.currentSegment ++ chunk100ms).length = 720000 := by
    rw [List.length_append, hlen]
    simp only [chunk100ms, List.length_replicate]
  unfold handleVoiceSegment
  dsimp only
  rw [if_pos rfl]
  rw [if_neg (show ¬(st.isCurrentlyVoice = false ∧
      VOICE_THRESHOLD_FRAMES ≤ st.voiceFrameCount + 1) from by
    rintro ⟨hc, _⟩
    rw [hic] at hc
    cases hc)]
  dsimp only
  rw [if_pos (show MAX_SEGMENT_DURATION ≤
      ((st.currentSegment ++ chunk100ms).length : ℚ) / SAMPLE_RATE from by
    rw [max_duration_iff, hlen2])]
  unfold endVoiceSegment
  dsimp only
  rw [if_neg (show ¬(st.isCurrentlyVoice = false) from by rw [hic]; simp)]
  rw [if_pos (show MIN_SEGMENT_DURATION ≤
      ((st.currentSegment ++ chunk100ms).length : ℚ) / SAMPLE_RATE from by
    rw [min_duration_iff, hlen2]; omega)]
  exact ⟨rfl, rfl, rfl, rfl, rfl⟩

/-- C5: under an uninterrupted voiced run of 100 ms chunks, exactly one
force-finalize occurs per 300 chunks — the emitted count after `k` chunks is
`k / 300`, each emitted segment is exactly 30 s of samples — and a new segment
immediately begins accumulating under the same run (`k % 300` chunks are
already buffered), with the hysteresis state tracking the position in the
current window. -/
theorem max_duration_force_finalize (k : ℕ) :
    (voicedRun k).emitted.length = k / 300
    ∧ ((voicedRun k).emitted.all fun s => s.length == 720000) = true
    ∧ (voicedRun k).currentSegment.length = k % 300 * 2400
    ∧ (voicedRun k).voiceFrameCount = k % 300
    ∧ (voicedRun k).silenceFrameCount = 0
    ∧ (voicedRun k).isCurrentlyVoice = decide (2 ≤ k % 300) := by
  induction k with
  | zero => exact ⟨rfl, rfl, rfl, rfl, rfl, rfl⟩
  | succ k ih =>
    obtain ⟨h1, h2, h3, h4, h5, h6⟩ := ih
    have hstep : voicedRun (k + 1) = handleVoiceSegment chunk100ms true (voicedRun k) := by
      unfold voicedRun runSeg
      rw [List.replicate_succ', List.foldl_append]
      rfl
    rw [hstep]
    by_cases hcap : k % 300 = 299
    · obtain ⟨e1, e2, e3, e4, e5⟩ :=
        voicedStep_at_cap (voicedRun k) (by rw [h4, hcap]) (by simp [h6, hcap])
          (by rw [h3, hcap])
      have hm1 : (k + 1) % 300 = 0 := by omega
      have hd1 : (k + 1) / 300 = k / 300 + 1 := by omega
      have hL : ((voicedRun k).currentSegment ++ chunk100ms).length = 720000 := by
        rw [List.length_append, h3, hcap]
        simp only [chunk100ms, List.length_replicate]
      refine ⟨?_, ?_, ?_, ?_, ?_, ?_⟩
      · rw [e1, List.length_append, h1, hd1]
        rfl
      · rw [e1, List.all_append, h2]
        simp only [List.all_cons, List.all_nil, Bool.true_and, Bool.and_true]
        rw [hL]
        rfl
      · rw [e2, hm1]
        rfl
      · rw [e3, hm1]
      · exact e4
      · rw [e5, hm1]
        rfl
    · have hmod : k % 300 < 300 := Nat.mod_lt _ (by norm_num)
      have hr : k % 300 + 1 < 300 := by omega
      obtain ⟨e1, e2, e3, e4, e5⟩ :=
        voicedStep_below_cap (voicedRun k) (k % 300) h5 h4 h6 h3 hr
      have hm1 : (k + 1) % 300 = k % 300 + 1 := by omega
      have hd1 : (k + 1) / 300 = k / 300 := by omega
      exact ⟨by rw [e1, h1, hd1], by rw [e1]; exact h2, by rw [e2, hm1],
             by rw [e3, hm1], e4, by rw [e5, hm1]⟩

/-- C9 witness: a single voiced frame followed by silence from the initial
state starts no segment. -/
theorem short_voice_run_no_segment_witness :
    (runSeg (List.replicate 1 (SegOp.frame ([] : List ℚ) true)) initSegState).isCurrentlyVoice
        = false
    ∧ (runSeg (List.replicate 1 (SegOp.frame ([] : List ℚ) true)) initSegState).emitted
        = initSegState.emitted
    ∧ (handleVoiceSegment [] false
        (runSeg (List.replicate 1 (SegOp.frame ([] : List ℚ) true))
          initSegState)).isCurrentlyVoice = false
    ∧ (handleVoiceSegment [] false
        (runSeg (List.replicate 1 (SegOp.frame ([] : List ℚ) true))
          initSegState)).voiceFrameCount = 0
    ∧ (handleVoiceSegment [] false
        (runSeg (List.replicate 1 (SegOp.frame ([] : List ℚ) true))
          initSegState)).emitted = initSegState.emitted :=
  short_voice_run_no_segment initSegState 1 [] [] rfl rfl (by decide)

/- ===================== C7 ===================== -/

/-- C7 counterexample: observing an absent frame on a fresh meter yields 0 but
leaves the rolling history entirely unmutated — the source returns before the
push, so no 0 entry is pushed, contradicting the claimed history effect. -/
theorem voice_level_empty_frame_no_push_cex :
    (calculateVoiceLevel (fun q => q) none voiceLevelInit).1 = 0
    ∧ (calculateVoiceLevel (fun q => q) none voiceLevelInit).2.voiceLevelHistory = []
    ∧ (calculateVoiceLevel (fun q => q) none voiceLevelInit).2.voiceLevelHistory
        ≠ voiceLevelInit.voiceLevelHistory ++ [0] := by
  decide

/-- C7 (amended): for every state and any abstraction of `Math.sqrt`, an empty
or absent frame yields level 0 and mutates no history at all (no entry is
pushed); the smoothed level is still re-averaged through
`updateSmoothedVoiceLevel`, and the meter always returns a value. -/
theorem voice_level_empty_frame_amended (sqrtApprox : ℚ → ℚ) (st : VoiceLevelState)
    (frame : Option (List ℚ)) (h : frame = none ∨ frame = some []) :
    calculateVoiceLevel sqrtApprox frame st
      = (0, updateSmoothedVoiceLevel { st with currentVoiceLevel := 0 })
    ∧ (calculateVoiceLevel sqrtApprox frame st).2.voiceLevelHistory
        = st.voiceLevelHistory := by
  rcases h with rfl | rfl <;> exact ⟨rfl, rfl⟩

/-- C7 witness: the amended empty-frame behaviour at a concrete meter state. -/
theorem voice_level_empty_frame_amended_witness :
    calculateVoiceLevel (fun q => q) (some []) ⟨1, 1, [1]⟩
      = (0, updateSmoothedVoiceLevel
          { currentVoiceLevel := 0, smoothedVoiceLevel := 1, voiceLevelHistory := [1] })
    ∧ (calculateVoiceLevel (fun q => q) (some [])
        ⟨1, 1, [1]⟩).2.voiceLevelHistory = [1] :=
  voice_level_empty_frame_amended (fun q => q) ⟨1, 1, [1]⟩ (some []) (Or.inr rfl)

/- ===================== C8 helper lemmas ===================== -/

/-- All six-bit groups are below 64 when the bytes are below 256. -/
theorem toSextets_lt (bytes : List ℕ) (h : ∀ b ∈ bytes, b < 256) :
    ∀ s ∈ toSextets bytes, s < 64 := by
  induction bytes using toSextets.induct with
  | case1 b1 b2 b3 rest ih =>
    have hb1 : b1 < 256 := h b1 (by simp)
    have hb2 : b2 < 256 := h b2 (by simp)
    have hb3 : b3 < 256 := h b3 (by simp)
    intro s hs
    simp only [toSextets, List.mem_cons] at hs
    rcases hs with rfl | rfl | rfl | rfl | hs
    · omega
    · omega
    · omega
    · omega
    · exact ih (fun b hb => h b (by simp [hb])) s hs
  | case2 b1 b2 =>
    have hb1 : b1 < 256 := h b1 (by simp)
    have hb2 : b2 < 256 := h b2 (by simp)
    intro s hs
    simp only [toSextets, List.mem_cons, List.not_mem_nil, or_false] at hs
    rcases hs with rfl | rfl | rfl <;> omega
  | case3 b1 =>
    have hb1 : b1 < 256 := h b1 (by simp)
    intro s hs
    simp only [toSextets, List.mem_cons, List.not_mem_nil, or_false] at hs
    rcases hs with rfl | rfl <;> omega
  | case4 =>
    intro s hs
    simp [toSextets] at hs

/-- The base64 alphabet inverts its own character map on the 64 valid
values. -/
theorem b64Index_b64Char : ∀ i, i < 64 → b64Index (b64Char i) = i := by decide

/-- No alphabet character is the padding character. -/
theorem b64Char_ne_pad : ∀ i, i < 64 → (b64Char i != padChar) = true := by decide

/-- Filtering the padding out of the character part keeps it whole. -/
theorem filter_pad_map (l : List ℕ) (hl : ∀ s ∈ l, s < 64) :
    (l.map b64Char).filter (fun c => c != padChar) = l.map b64Char := by
  rw [List.filter_eq_self]
  intro c hc
  rw [List.mem_map] at hc
  obtain ⟨s, hs, rfl⟩ := hc
  exact b64Char_ne_pad s (hl s hs)

/-- Filtering the padding out of the padding removes it entirely. -/
theorem filter_padding (n : ℕ) :
    (b64Padding n).filter (fun c => c != padChar) = [] := by
  rcases n with _ | _ | _ | n <;> rfl

/-- Mapping back through the alphabet is the identity on valid six-bit
values. -/
theorem map_index_char (l : List ℕ) (hl : ∀ s ∈ l, s < 64) :
    l.map (b64Index ∘ b64Char) = l := by
  induction l with
  | nil => rfl
  | cons a rest ih =>
    simp only [List.map_cons, Function.comp]
    rw [b64Index_b64Char a (hl a (by simp)),
        ih (fun s hs => hl s (by simp [hs]))]

/-- Recombining the six-bit groups recovers the bytes. -/
theorem decodeSextets_toSextets (bytes : List ℕ) (h : ∀ b ∈ bytes, b < 256) :
    decodeSextets (toSextets bytes) = bytes := by
  induction bytes using toSextets.induct with
  | case1 b1 b2 b3 rest ih =>
    have hb1 : b1 < 256 := h b1 (by simp)
    have hb2 : b2 < 256 := h b2 (by simp)
    have hb3 : b3 < 256 := h b3 (by simp)
    simp only [toSextets, decodeSextets]
    rw [ih (fun b hb => h b (by simp [hb]))]
    simp only [List.cons.injEq]
    refine ⟨?_, ?_, ?_, trivial⟩ <;> omega
  | case2 b1 b2 =>
    have hb1 : b1 < 256 := h b1 (by simp)
    have hb2 : b2 < 256 := h b2 (by simp)
    simp only [toSextets, decodeSextets]
    simp only [List.cons.injEq, and_true]
    constructor <;> omega
  | case3 b1 =>
    have hb1 : b1 < 256 := h b1 (by simp)
    simp only [toSextets, decodeSextets]
    simp only [List.cons.injEq, and_true]
    omega
  | case4 => rfl

/-- Base64 decoding inverts `btoa` on the byte lists the encoder is fed. -/
theorem atob_btoa (bytes : List ℕ) (h : ∀ b ∈ bytes, b < 256) :
    atobBytes (String.mk (encodeB64 bytes)) = bytes := by
  show decodeSextets
      (((encodeB64 bytes).filter fun c => c != padChar).map b64Index) = bytes
  unfold encodeB64
  rw [List.filter_append, filter_pad_map _ (toSextets_lt bytes h), filter_padding,
      List.append_nil, List.map_map, map_index_char _ (toSextets_lt bytes h)]
  exact decodeSextets_toSextets bytes h

/-- Every byte of the `Int16Array` buffer view is below 256. -/
theorem int16sToBytes_lt (l : List ℤ) : ∀ b ∈ int16sToBytes l, b < 256 := by
  intro b hb
  unfold int16sToBytes at hb
  rw [List.mem_flatMap] at hb
  obtain ⟨n, _, hbn⟩ := hb
  unfold int16ToBytes at hbn
  simp only [List.mem_cons, List.not_mem_nil, or_false] at hbn
  rcases hbn with rfl | rfl <;> omega

/-- Reinterpreting the little-endian byte pairs recovers the stored int16
values. -/
theorem bytesToInt16s_int16sToBytes (l : List ℤ)
    (h : ∀ n ∈ l, -32768 ≤ n ∧ n < 32768) :
    bytesToInt16s (int16sToBytes l) = l := by
  induction l with
  | nil => rfl
  | cons n rest ih =>
    obtain ⟨hn1, hn2⟩ := h n (by simp)
    have ih2 := ih (fun m hm => h m (by simp [hm]))
    unfold int16sToBytes at ih2 ⊢
    rw [List.flatMap_cons]
    rw [show int16ToBytes n
        = [(n % 65536).toNat % 256, (n % 65536).toNat / 256] from rfl]
    rw [List.cons_append, List.cons_append, List.nil_append]
    simp only [bytesToInt16s]
    rw [ih2]
    simp only [List.cons.injEq, and_true]
    split_ifs with hsb <;> omega

/-- The stored value of one encoded sample is a valid int16. -/
theorem encodeSample_range (x : ℚ) :
    -32768 ≤ encodeSample x ∧ encodeSample x < 32768 := by
  unfold encodeSample clampSample jsTruncToInt
  dsimp only
  set s := max (-1 : ℚ) (min 1 x) with hs
  have hs1 : -1 ≤ s := le_max_left _ _
  have hs2 : s ≤ 1 := max_le (by norm_num) (min_le_left _ _)
  split_ifs with h1 h2 h3
  · have hy1 : (0 : ℚ) ≤ -(s * 32768) := by nlinarith
    have hy2 : -(s * 32768) ≤ 32768 := by nlinarith
    have hf1 : (0 : ℤ) ≤ ⌊-(s * 32768)⌋ := Int.floor_nonneg.mpr hy1
    have hf2 : ⌊-(s * 32768)⌋ ≤ 32768 := by
      have := Int.floor_le (-(s * 32768))
      have hcast : (⌊-(s * 32768)⌋ : ℚ) ≤ 32768 := le_trans this hy2
      exact_mod_cast hcast
    omega
  · exact absurd (mul_neg_of_neg_of_pos h1 (by norm_num)) h2
  · exact absurd (mul_nonneg (not_lt.mp h1) (by norm_num)) (not_le.mpr h3)
  · have hy1 : (0 : ℚ) ≤ s * 32767 := mul_nonneg (not_lt.mp h1) (by norm_num)
    have hy2 : s * 32767 ≤ 32767 := by nlinarith
    have hf1 : (0 : ℤ) ≤ ⌊s * 32767⌋ := Int.floor_nonneg.mpr hy1
    have hf2 : ⌊s * 32767⌋ ≤ 32767 := by
      have := Int.floor_le (s * 32767)
      have hcast : (⌊s * 32767⌋ : ℚ) ≤ 32767 := le_trans this hy2
      exact_mod_cast hcast
    omega

/-- One sample survives quantization, byte packing aside, within one
quantization step. -/
theorem sample_roundtrip (x : ℚ) (h1 : -1 ≤ x) (h2 : x ≤ 1) :
    |int16ToSample (encodeSample x) - x| ≤ 1 / 32767 := by
  have hcl : clampSample x = x := by
    unfold clampSample
    rw [min_eq_right h2, max_eq_right h1]
  unfold encodeSample
  rw [hcl]
  rcases lt_or_ge x 0 with hx | hx
  · rw [if_pos hx]
    unfold jsTruncToInt
    rw [if_pos (mul_neg_of_neg_of_pos hx (by norm_num))]
    have hfl : (⌊-(x * 32768)⌋ : ℚ) ≤ -(x * 32768) := Int.floor_le _
    have hfu : -(x * 32768) < ⌊-(x * 32768)⌋ + 1 := Int.lt_floor_add_one _
    have hnn : (0 : ℤ) ≤ ⌊-(x * 32768)⌋ := Int.floor_nonneg.mpr (by nlinarith)
    have hval : int16ToSample (-⌊-(x * 32768)⌋) = ((-⌊-(x * 32768)⌋ : ℤ) : ℚ) / 32768 := by
      unfold int16ToSample
      split_ifs with hn0
      · rfl
      · have hz : -⌊-(x * 32768)⌋ = 0 := by omega
        rw [hz]
        norm_num
    rw [hval, abs_le]
    constructor
    · have hle : x ≤ ((-⌊-(x * 32768)⌋ : ℤ) : ℚ) / 32768 := by
        rw [le_div_iff (by norm_num : (0 : ℚ) < 32768)]
        push_cast
        linarith
      have hpos : (0 : ℚ) < 1 / 32767 := by norm_num
      linarith
    · have hlt : ((-⌊-(x * 32768)⌋ : ℤ) : ℚ) / 32768 < x + 1 / 32768 := by
        rw [div_lt_iff (by norm_num : (0 : ℚ) < 32768)]
        push_cast
        linarith
      have hstep : (1 : ℚ) / 32768 ≤ 1 / 32767 := by norm_num
      linarith
  · rw [if_neg (not_lt.mpr hx)]
    unfold jsTruncToInt
    rw [if_neg (not_lt.mpr (mul_nonneg hx (by norm_num)))]
    have hfl : (⌊x * 32767⌋ : ℚ) ≤ x * 32767 := Int.floor_le _
    have hfu : x * 32767 < ⌊x * 32767⌋ + 1 := Int.lt_floor_add_one _
    have hnn : (0 : ℤ) ≤ ⌊x * 32767⌋ := Int.floor_nonneg.mpr (mul_nonneg hx (by norm_num))
    have hval : int16ToSample ⌊x * 32767⌋ = ((⌊x * 32767⌋ : ℤ) : ℚ) / 32767 := by
      unfold int16ToSample
      rw [if_neg (by omega)]
    rw [hval, abs_le]
    constructor
    · have hlt : x - 1 / 32767 < ((⌊x * 32767⌋ : ℤ) : ℚ) / 32767 := by
        rw [lt_div_iff (by norm_num : (0 : ℚ) < 32767)]
        linarith
      linarith
    · have hle : ((⌊x * 32767⌋ : ℤ) : ℚ) / 32767 ≤ x := by
        rw [div_le_iff (by norm_num : (0 : ℚ) < 32767)]
        linarith
      have hpos : (0 : ℚ) < 1 / 32767 := by norm_num
      linarith

/- ===================== C8 ===================== -/

/-- C8: PCM16-encoding a sample sequence with values in [-1, 1], converting
the buffer to base64, and decoding back reproduces every original sample
within one quantization step (1/32767). -/
theorem pcm16_base64_roundtrip (samples : List ℚ)
    (h : ∀ x ∈ samples, -1 ≤ x ∧ x ≤ 1) :
    List.Forall₂ (fun x y => |y - x| ≤ 1 / 32767) samples
      (decodePcm16Base64 (arrayBufferToBase64 (convertFloat32ToInt16 samples))) := by
  have hrange : ∀ n ∈ convertFloat32ToInt16 samples, -32768 ≤ n ∧ n < 32768 := by
    intro n hn
    rw [convertFloat32ToInt16, List.mem_map] at hn
    obtain ⟨x, _, rfl⟩ := hn
    exact encodeSample_range x
  have hdec : decodePcm16Base64 (arrayBufferToBase64 (convertFloat32ToInt16 samples))
      = (convertFloat32ToInt16 samples).map int16ToSample := by
    unfold decodePcm16Base64 arrayBufferToBase64
    rw [atob_btoa _ (int16sToBytes_lt (convertFloat32ToInt16 samples)),
        bytesToInt16s_int16sToBytes _ hrange]
  rw [hdec]
  unfold convertFloat32ToInt16
  rw [List.map_map, List.forall₂_map_right_iff]
  rw [List.forall₂_same]
  intro x hx
  obtain ⟨hx1, hx2⟩ := h x hx
  exact sample_roundtrip x hx1 hx2

/-- C8 witness: the round-trip bound at a concrete sample sequence. -/
theorem pcm16_base64_roundtrip_witness :
    List.Forall₂ (fun x y => |y - x| ≤ 1 / 32767) pcm16WitnessSamples
      (decodePcm16Base64 (arrayBufferToBase64 (convertFloat32ToInt16 pcm16WitnessSamples))) :=
  pcm16_base64_roundtrip pcm16WitnessSamples
    (by intro x hx; fin_cases hx <;> norm_num)

end Rani
